import Mathlib

/-! # Recent-file tracker and save path of the Subsurface main window

A shallow embedding of `qt-ui/mainwindow.cpp`: the `Recent_Files` settings
group, the three operations on it (`loadRecentFiles`, `addRecentFile`,
`removeRecentFile`), the callers `loadFiles`, `file_save_as`, `file_save`, the
handlers that close a file or quit (`askSaveChanges`,
`on_actionClose_triggered`, `on_actionQuit_triggered`, `closeEvent`,
`recentFileTriggered`, `on_actionOpen_triggered`), and the two handlers that
cycle through the dive computers.

Strings stand for `QString` paths, `List String` for `QStringList`.  Code of
other translation units (`QFile::exists`, `parse_file`, `save_dives`, ...) is
taken as a parameter, collected in `Env`.
-/

namespace Subsurface

/-! ## The `Recent_Files` settings group -/

/-- The `Recent_Files` group of `QSettings`: `s c` is the value stored under
the key `File_c` (`QString("File_%1").arg(c)`), `none` when the key is absent. -/
abbrev Settings := Nat → Option String

namespace Settings

/-- The call `QSettings::contains(key)` for the key `File_c`. -/
def contains (s : Settings) (c : Nat) : Bool := (s c).isSome

/-- The call `QSettings::setValue(key, v)` for the key `File_c`. -/
def setValue (s : Settings) (c : Nat) (v : String) : Settings :=
  fun k => if k = c then some v else s k

/-- The call `QSettings::remove(key)` for the key `File_c`. -/
def remove (s : Settings) (c : Nat) : Settings :=
  fun k => if k = c then none else s k

/-- A settings group holding exactly `files` in the slots `File_1, File_2, ...`. -/
def ofList (files : List String) : Settings :=
  fun k => if k = 0 then none else files[k - 1]?

end Settings

/-- The read loop shared by `addRecentFile` and `removeRecentFile`
(`for (int c = 1; c <= 4; c++)` with `break` at the first missing key):
`readLoop s c n files` runs `n` more iterations starting at slot `c`, having
appended `files` so far.  The `match` on `s c` is `s.contains(key)` followed by
`s.value(key).toString()`. -/
def readLoop (s : Settings) : Nat → Nat → List String → List String
  | _, 0, files => files
  | c, n + 1, files =>
    match s c with
    | some file => readLoop s (c + 1) n (files ++ [file])
    | none => files

/-- The stored recent-file list: slots `File_1 ..` read up to the first
missing slot, at most four of them. -/
def storedFiles (s : Settings) : List String := readLoop s 1 4 []

/-- The read loop of `loadRecentFiles`: as `readLoop`, but a path whose file
does not exist is skipped and sets `modified`. -/
def loadLoop (fileExists : String → Bool) (s : Settings) :
    Nat → Nat → List String × Bool → List String × Bool
  | _, 0, acc => acc
  | c, n + 1, (files, modified) =>
    match s c with
    | some file =>
      if fileExists file then loadLoop fileExists s (c + 1) n (files ++ [file], modified)
      else loadLoop fileExists s (c + 1) n (files, true)
    | none => (files, modified)

/-- The write loop of `addRecentFile` and `removeRecentFile`
(`for (int c = 1; c <= 4; c++)`): slot `c` receives `files.at(c - 1)` when
`files.count() >= c`, and is removed otherwise if present. -/
def writeLoop (files : List String) : Nat → Nat → Settings → Settings
  | _, 0, s => s
  | c, n + 1, s =>
    if files.length ≥ c then
      match files[c - 1]? with
      | some file => writeLoop files (c + 1) n (s.setValue c file)
      | none => writeLoop files (c + 1) n s
    else if s.contains c then
      writeLoop files (c + 1) n (s.remove c)
    else
      writeLoop files (c + 1) n s

/-- The rewrite loop of `loadRecentFiles` (`for (int c = 0; c < 4; c++)`, key
`File_(c+1)`): slot `c + 1` receives `files.at(c)` when `files.count() > c`. -/
def rewriteLoop (files : List String) : Nat → Nat → Settings → Settings
  | _, 0, s => s
  | c, n + 1, s =>
    if files.length > c then
      match files[c]? with
      | some file => rewriteLoop files (c + 1) n (s.setValue (c + 1) file)
      | none => rewriteLoop files (c + 1) n s
    else if s.contains (c + 1) then
      rewriteLoop files (c + 1) n (s.remove (c + 1))
    else
      rewriteLoop files (c + 1) n s

/-- The loop `while (files.count() > 4) files.removeLast();` with `n`
iterations allowed. -/
def removeLastLoop : Nat → List String → List String
  | 0, files => files
  | n + 1, files => if files.length > 4 then removeLastLoop n files.dropLast else files

/-- One step of the first `foreach` of `addRecentFile`:
`index = files.indexOf(file); if (index >= 0) files.removeAt(index);`.
`List.indexOf` returns the length where `QList::indexOf` returns `-1`. -/
def removeAtIndexOf (files : List String) (file : String) : List String :=
  let index := files.indexOf file
  if index < files.length then files.eraseIdx index else files

/-- One step of the second `foreach` of `addRecentFile`:
`if (QFile::exists(file)) files.prepend(file);`. -/
def prependIfExists (fileExists : String → Bool) (files : List String) (file : String) :
    List String :=
  if fileExists file then file :: files else files

/-- One step of the `foreach` of `removeRecentFile`: `files.removeAll(file)`. -/
def removeAll (files : List String) (file : String) : List String :=
  files.filter (fun f => f != file)

/-! ## The main window -/

/-- The modes of `DivePlannerPointsModel::currentMode()`. -/
inductive PlannerMode where
  | NOTHING
  | PLAN
  | ADD
  deriving DecidableEq, Repr

/-- The part of the program state the handlers below read or write. -/
structure MainWindow where
  /-- the persistent `Recent_Files` group -/
  settings : Settings
  /-- tool tips of the visible `actionRecent1..4` menu entries -/
  recentActions : List String
  /-- the global `existing_filename` (`none` for `NULL`) -/
  existing_filename : Option String
  /-- the flag read by `unsaved_changes()` and set by `mark_divelist_changed` -/
  unsaved : Bool
  /-- the value of `ui.InfoWidget->isEditing()` -/
  isEditing : Bool
  /-- the value of `DivePlannerPointsModel::instance()->currentMode()` -/
  plannerMode : PlannerMode
  /-- the global `dive_table.nr` -/
  dive_table_nr : Nat
  /-- the global `selected_dive` -/
  selected_dive : Int
  /-- the arguments of the `parse_file` calls made so far, oldest first -/
  parsed : List String
  /-- the global `dc_number`, an `unsigned int` -/
  dc_number : Nat := 0
  /-- how often the "Save Changes?" box of `askSaveChanges` was shown -/
  asked : Nat := 0
  /-- how often a `QMessageBox::warning` was shown -/
  warned : Nat := 0
  /-- how often `writeSettings()` was called -/
  settingsWrites : Nat := 0
  /-- how often `QApplication::quit()` was called -/
  quitCalls : Nat := 0
  /-- how often `QApplication::closeAllWindows()` was called -/
  closeAllCalls : Nat := 0

/-- Code of other translation units, taken as parameters. -/
structure Env where
  /-- the predicate `QFile::exists` -/
  fileExists : String → Bool
  /-- the call `parse_file(name)`: its return value (non-zero on error) and the
  number of dives it appends to `dive_table`, in the state it is called in -/
  parse_file : MainWindow → String → Int × Nat
  /-- the call `process_dives(...)`: the new value of `dive_table.nr` -/
  process_dives : MainWindow → Nat
  /-- the call `save_dives(name)`: its return value (non-zero on error); the
  name is `none` for a null pointer -/
  save_dives : MainWindow → Option String → Int
  /-- the call `ui.InfoWidget->acceptChanges()` -/
  acceptChanges : MainWindow → MainWindow
  /-- the answer of `QFileDialog::getSaveFileName` (`none` for a null string) -/
  getSaveFileName : MainWindow → Option String
  /-- the return value of `report_error(msg)` -/
  report_error : String → Int
  /-- the value of `response.exec()` in `askSaveChanges`: the button chosen -/
  exec : MainWindow → Int
  /-- the call `ui.InfoWidget->rejectChanges()` -/
  rejectChanges : MainWindow → MainWindow
  /-- the call `DivePlannerPointsModel::instance()->cancelPlan()` -/
  cancelPlan : MainWindow → MainWindow
  /-- the answer of `QFileDialog::getOpenFileName` (empty when dismissed) -/
  getOpenFileName : MainWindow → String

/-- A main window with `files` in the slots `File_1 ..`, no file open and no
edit in progress. -/
def MainWindow.ofRecent (files : List String) : MainWindow where
  settings := Settings.ofList files
  recentActions := []
  existing_filename := none
  unsaved := false
  isEditing := false
  plannerMode := PlannerMode.NOTHING
  dive_table_nr := 0
  selected_dive := -1
  parsed := []

/-- Source: `MainWindow::loadRecentFiles(QSettings *s)`. -/
def loadRecentFiles (fileExists : String → Bool) (w : MainWindow) : MainWindow :=
  let r := loadLoop fileExists w.settings 1 4 ([], false)
  let files := r.1
  let modified := r.2
  let s := if modified then rewriteLoop files 0 4 w.settings else w.settings
  { w with settings := s, recentActions := files.take 4 }

/-- The local list `files` of `addRecentFile` when it reaches its write loop:
the stored list read, each new path's first occurrence removed, each new path
whose file exists prepended, and entries removed from the end down to four. -/
def addRecentFileList (fileExists : String → Bool) (newFiles : List String)
    (s : Settings) : List String :=
  let files := readLoop s 1 4 []
  let files := newFiles.foldl removeAtIndexOf files
  let files := newFiles.foldl (prependIfExists fileExists) files
  removeLastLoop files.length files

/-- Source: `MainWindow::addRecentFile(const QStringList &newFiles)`. -/
def addRecentFile (fileExists : String → Bool) (newFiles : List String) (w : MainWindow) :
    MainWindow :=
  if newFiles.isEmpty then w
  else
    let files := addRecentFileList fileExists newFiles w.settings
    let s := writeLoop files 1 4 w.settings
    loadRecentFiles fileExists { w with settings := s }

/-- Source: `MainWindow::removeRecentFile(QStringList failedFiles)`. -/
def removeRecentFile (fileExists : String → Bool) (failedFiles : List String) (w : MainWindow) :
    MainWindow :=
  if failedFiles.isEmpty then w
  else
    let files := readLoop w.settings 1 4 []
    let files := failedFiles.foldl removeAll files
    let s := writeLoop files 1 4 w.settings
    loadRecentFiles fileExists { w with settings := s }

/-- The `for` loop of `loadFiles` over the remaining `fileNames`, in the state
`w` and with `failedParses` collected so far.  `parse_file` is logged in
`parsed` and appends its dives; on success `set_filename(name, true)` makes the
file the current one, on error the name is appended to `failedParses`. -/
def parseLoop (env : Env) : List String → MainWindow → List String → MainWindow × List String
  | [], w, failedParses => (w, failedParses)
  | file :: rest, w, failedParses =>
    let error := (env.parse_file w file).1
    let w1 := { w with
      parsed := w.parsed ++ [file],
      dive_table_nr := w.dive_table_nr + (env.parse_file w file).2 }
    if error = 0 then
      parseLoop env rest { w1 with existing_filename := some file } failedParses
    else
      parseLoop env rest w1 (failedParses ++ [file])

/-- Source: `MainWindow::loadFiles(const QStringList fileNames)`. -/
def loadFiles (env : Env) (fileNames : List String) (w : MainWindow) : MainWindow :=
  if fileNames.isEmpty then w
  else
    let r := parseLoop env fileNames w []
    let failedParses := r.2
    let w1 := { r.1 with dive_table_nr := env.process_dives r.1 }
    let w2 := addRecentFile env.fileExists fileNames w1
    removeRecentFile env.fileExists failedParses w2

/-- Source: `MainWindow::file_save_as`.  The result is the return value and
the state left. -/
def file_save_as (env : Env) (w : MainWindow) : Int × MainWindow :=
  match env.getSaveFileName w with
  | none => (env.report_error "No filename to save into", w)
  | some filename =>
    if filename.isEmpty then (env.report_error "No filename to save into", w)
    else
      let w1 := if w.isEditing then env.acceptChanges w else w
      if env.save_dives w1 (some filename) ≠ 0 then (-1, w1)
      else
        let w2 := { w1 with existing_filename := some filename, unsaved := false }
        (0, addRecentFile env.fileExists [filename] w2)

/-- Source: `MainWindow::file_save`.  The result is the return value and the
state left.  The global `existing_filename` is tested when the function
starts and read again after `acceptChanges()`: that value goes to `save_dives`
and, as `QString(existing_filename)` (empty for a null pointer), to
`addRecentFile`.  Creating the directory of the default file touches no field
of the state. -/
def file_save (env : Env) (w : MainWindow) : Int × MainWindow :=
  match w.existing_filename with
  | none => file_save_as env w
  | some _ =>
    let w1 := if w.isEditing then env.acceptChanges w else w
    if env.save_dives w1 w1.existing_filename ≠ 0 then (-1, w1)
    else
      (0, addRecentFile env.fileExists [w1.existing_filename.getD ""]
        { w1 with unsaved := false })

/-- The value of `QMessageBox::Save` in the Qt enum `StandardButton`. -/
def QMessageBox.Save : Int := 0x00000800

/-- The value of `QMessageBox::Discard` in the Qt enum `StandardButton`. -/
def QMessageBox.Discard : Int := 0x00800000

/-- The value of `QMessageBox::Cancel` in the Qt enum `StandardButton`. -/
def QMessageBox.Cancel : Int := 0x00400000

/-- An environment in which every file exists, `parse_file` fails exactly on
the paths of `bad`, and `save_dives` fails exactly when `saveFails`; the user
dismisses every dialog, and `rejectChanges` and `cancelPlan` change nothing. -/
def Env.simple (bad : List String) (saveFails : Bool) : Env where
  fileExists := fun _ => true
  parse_file := fun _ name => if name ∈ bad then (-1, 0) else (0, 1)
  process_dives := fun w => w.dive_table_nr
  save_dives := fun _ _ => if saveFails then -1 else 0
  acceptChanges := fun w => { w with isEditing := false }
  getSaveFileName := fun _ => none
  report_error := fun _ => -1
  exec := fun _ => QMessageBox.Cancel
  rejectChanges := fun w => w
  cancelPlan := fun w => w
  getOpenFileName := fun _ => ""

/-- The Add procedure in the words of the specification: for each new path in
order, remove every existing occurrence of it from the list and then prepend
it; finally keep the first 4 entries. -/
def specAdd (stored newFiles : List String) : List String :=
  (newFiles.foldl (fun files p => p :: files.filter (fun f => f != p)) stored).take 4

/-- The Add procedure of the specification with the guard of the code: a new
path is prepended only when its file exists. -/
def specAddExisting (fileExists : String → Bool) (stored newFiles : List String) :
    List String :=
  (newFiles.foldl
    (fun files p =>
      if fileExists p then p :: files.filter (fun f => f != p)
      else files.filter (fun f => f != p)) stored).take 4

/-! ## Closing, quitting and cycling through the dive computers -/

/-- Source: `MainWindow::askSaveChanges`.  The result is the return value and
the state left. -/
def askSaveChanges (env : Env) (w : MainWindow) : Bool × MainWindow :=
  let ret := env.exec w
  let w1 := { w with asked := w.asked + 1 }
  if ret = QMessageBox.Save then (true, (file_save env w1).2)
  else if ret = QMessageBox.Discard then (true, w1)
  else (false, w1)

/-- Modelled from the spec: `delete_single_dive(0)`, a function of the
dive-list module that is not part of this file, taken to remove one dive from
`dive_table`. -/
def delete_single_dive (w : MainWindow) : MainWindow :=
  { w with dive_table_nr := w.dive_table_nr - 1 }

/-- The loop `while (dive_table.nr) delete_single_dive(0);` with `n`
iterations allowed. -/
def deleteLoop : Nat → MainWindow → MainWindow
  | 0, w => w
  | n + 1, w => if w.dive_table_nr ≠ 0 then deleteLoop n (delete_single_dive w) else w

/-- The part of `on_actionClose_triggered` after its two guards: the dives are
deleted, the selection and the file name cleared, and the list marked as
unchanged. -/
def closeFile (w : MainWindow) : MainWindow :=
  let w1 := deleteLoop w.dive_table_nr w
  { w1 with selected_dive := -1, existing_filename := none, unsaved := false }

/-- Source: `MainWindow::on_actionClose_triggered`. -/
def on_actionClose_triggered (env : Env) (w : MainWindow) : MainWindow :=
  if w.plannerMode ≠ PlannerMode.NOTHING ∨ w.isEditing = true then
    { w with warned := w.warned + 1 }
  else if w.unsaved = true then
    let r := askSaveChanges env w
    if r.1 = false then r.2 else closeFile r.2
  else
    closeFile w

/-- Source: `MainWindow::recentFileTriggered(bool checked)`; `filename` is the
tool tip of the action that sent the signal. -/
def recentFileTriggered (env : Env) (filename : String) (w : MainWindow) : MainWindow :=
  loadFiles env [filename] (on_actionClose_triggered env w)

/-- Source: `MainWindow::on_actionOpen_triggered`. -/
def on_actionOpen_triggered (env : Env) (w : MainWindow) : MainWindow :=
  if w.plannerMode ≠ PlannerMode.NOTHING ∨ w.isEditing = true then
    { w with warned := w.warned + 1 }
  else
    let filename := env.getOpenFileName w
    if filename.isEmpty then w
    else loadFiles env [filename] (on_actionClose_triggered env w)

/-- The value of `(dc_number + nrdc - 1) % nrdc` in `unsigned` (32-bit)
arithmetic, for `nrdc` other than 0. -/
def previousDC (nrdc dc_number : Nat) : Nat :=
  (((dc_number + nrdc) % 2 ^ 32 + (2 ^ 32 - 1)) % 2 ^ 32) % nrdc

/-- The value of `(dc_number + 1) % nrdc` in `unsigned` (32-bit) arithmetic,
for `nrdc` other than 0. -/
def nextDC (nrdc dc_number : Nat) : Nat :=
  ((dc_number + 1) % 2 ^ 32) % nrdc

/-- Source: `MainWindow::on_actionPreviousDC_triggered`, with `nrdc` the value
of `number_of_computers(current_dive)`; `none` stands for the division by
zero. -/
def on_actionPreviousDC_triggered (nrdc : Nat) (w : MainWindow) : Option MainWindow :=
  if nrdc = 0 then none
  else some { w with dc_number := previousDC nrdc w.dc_number }

/-- Source: `MainWindow::on_actionNextDC_triggered`, with `nrdc` the value of
`number_of_computers(current_dive)`; `none` stands for the division by zero. -/
def on_actionNextDC_triggered (nrdc : Nat) (w : MainWindow) : Option MainWindow :=
  if nrdc = 0 then none
  else some { w with dc_number := nextDC nrdc w.dc_number }

/-- The handler `on_actionNextDC_triggered` run `k` times in a row. -/
def repeatNextDC (nrdc : Nat) : Nat → MainWindow → Option MainWindow
  | 0, w => some w
  | k + 1, w => (on_actionNextDC_triggered nrdc w).bind (repeatNextDC nrdc k)

/-- A settings group with a gap: `File_1` and `File_3` are set, `File_2` is
missing. -/
def Settings.withGap : Settings :=
  fun k => if k = 1 then some "/a.ssrf" else if k = 3 then some "/c.ssrf" else none

/-! ## Lemmas on the loops -/

theorem readLoop_acc (s : Settings) (n c : Nat) (files : List String) :
    readLoop s c n files = files ++ readLoop s c n [] := by
  induction n generalizing c files with
  | zero => simp [readLoop]
  | succ n ih =>
    unfold readLoop
    cases h : s c with
    | none => simp
    | some file =>
      simp only
      rw [ih (c + 1) (files ++ [file]), ih (c + 1) ([] ++ [file])]
      simp

theorem readLoop_length (s : Settings) (n c : Nat) :
    (readLoop s c n []).length ≤ n := by
  induction n generalizing c with
  | zero => simp [readLoop]
  | succ n ih =>
    unfold readLoop
    cases h : s c with
    | none => simp
    | some file =>
      simp only
      rw [readLoop_acc]
      have := ih (c + 1)
      simp
      omega

theorem storedFiles_length (s : Settings) : (storedFiles s).length ≤ 4 :=
  readLoop_length s 4 1

theorem writeLoop_apply (files : List String) (n c : Nat) (s : Settings) (k : Nat)
    (hc : 1 ≤ c) :
    writeLoop files c n s k = if c ≤ k ∧ k < c + n then files[k - 1]? else s k := by
  induction n generalizing c s with
  | zero =>
    have h0 : ¬ (c ≤ k ∧ k < c + 0) := by omega
    rw [if_neg h0]
    rfl
  | succ n ih =>
    unfold writeLoop
    by_cases hlen : files.length ≥ c
    · have hlt : c - 1 < files.length := by omega
      rw [if_pos hlen, List.getElem?_eq_getElem hlt]
      simp only
      rw [ih (c + 1) _ (by omega)]
      by_cases hk : k = c
      · subst hk
        have h1 : ¬ (k + 1 ≤ k ∧ k < k + 1 + n) := by omega
        have h2 : k ≤ k ∧ k < k + (n + 1) := by omega
        simp [h1, h2, Settings.setValue, List.getElem?_eq_getElem hlt]
      · by_cases h3 : c + 1 ≤ k ∧ k < c + 1 + n
        · have h4 : c ≤ k ∧ k < c + (n + 1) := by omega
          simp [h3, h4]
        · have h4 : ¬ (c ≤ k ∧ k < c + (n + 1)) := by omega
          simp [h3, h4, Settings.setValue, hk]
    · rw [if_neg hlen]
      have hnone : files[c - 1]? = none := by
        apply List.getElem?_eq_none
        omega
      by_cases hcont : s.contains c
      · rw [if_pos hcont, ih (c + 1) _ (by omega)]
        by_cases hk : k = c
        · subst hk
          have h1 : ¬ (k + 1 ≤ k ∧ k < k + 1 + n) := by omega
          have h2 : k ≤ k ∧ k < k + (n + 1) := by omega
          simp [h1, h2, Settings.remove, hnone]
        · by_cases h3 : c + 1 ≤ k ∧ k < c + 1 + n
          · have h4 : c ≤ k ∧ k < c + (n + 1) := by omega
            simp [h3, h4]
          · have h4 : ¬ (c ≤ k ∧ k < c + (n + 1)) := by omega
            simp [h3, h4, Settings.remove, hk]
      · rw [if_neg hcont, ih (c + 1) _ (by omega)]
        by_cases hk : k = c
        · subst hk
          have h1 : ¬ (k + 1 ≤ k ∧ k < k + 1 + n) := by omega
          have h2 : k ≤ k ∧ k < k + (n + 1) := by omega
          have h5 : s k = none := by
            simpa [Settings.contains] using hcont
          simp [h1, h2, hnone, h5]
        · by_cases h3 : c + 1 ≤ k ∧ k < c + 1 + n
          · have h4 : c ≤ k ∧ k < c + (n + 1) := by omega
            simp [h3, h4]
          · have h4 : ¬ (c ≤ k ∧ k < c + (n + 1)) := by omega
            simp [h3, h4]

theorem rewriteLoop_eq_writeLoop (files : List String) (n c : Nat) (s : Settings) :
    rewriteLoop files c n s = writeLoop files (c + 1) n s := by
  induction n generalizing c s with
  | zero => rfl
  | succ n ih =>
    unfold rewriteLoop writeLoop
    simp only [Nat.add_sub_cancel, ge_iff_le, gt_iff_lt, Nat.succ_le_iff, ih]

/-- Reading back slots that hold the entries of `files`. -/
theorem readLoop_of_agree (files : List String) (s : Settings) (n c : Nat) (hc : 1 ≤ c)
    (h : ∀ k, c ≤ k → k < c + n → s k = files[k - 1]?) :
    readLoop s c n [] = (files.drop (c - 1)).take n := by
  induction n generalizing c with
  | zero => simp [readLoop]
  | succ n ih =>
    unfold readLoop
    rw [h c (le_refl c) (by omega)]
    by_cases hlt : c - 1 < files.length
    · rw [List.getElem?_eq_getElem hlt]
      simp only
      rw [readLoop_acc, ih (c + 1) (by omega) (fun k h1 h2 => h k (by omega) (by omega))]
      rw [List.drop_eq_getElem_cons hlt, List.take_succ_cons]
      have : c - 1 + 1 = c + 1 - 1 := by omega
      rw [this]
      simp
    · have hnone : files[c - 1]? = none := List.getElem?_eq_none (by omega)
      rw [hnone]
      simp only
      rw [List.drop_eq_nil_of_le (by omega)]
      simp

theorem storedFiles_writeLoop (files : List String) (s : Settings) :
    storedFiles (writeLoop files 1 4 s) = files.take 4 := by
  unfold storedFiles
  rw [readLoop_of_agree files _ 4 1 (le_refl 1)]
  · simp
  · intro k h1 h2
    rw [writeLoop_apply files 4 1 s k (le_refl 1), if_pos ⟨h1, h2⟩]

theorem storedFiles_rewriteLoop (files : List String) (s : Settings) :
    storedFiles (rewriteLoop files 0 4 s) = files.take 4 := by
  rw [rewriteLoop_eq_writeLoop]
  exact storedFiles_writeLoop files s

theorem loadLoop_eq (fileExists : String → Bool) (s : Settings) (n c : Nat)
    (files : List String) (modified : Bool) :
    loadLoop fileExists s c n (files, modified) =
      (files ++ (readLoop s c n []).filter fileExists,
        modified || (readLoop s c n []).any (fun f => !fileExists f)) := by
  induction n generalizing c files modified with
  | zero => simp [loadLoop, readLoop]
  | succ n ih =>
    unfold loadLoop readLoop
    cases h : s c with
    | none => simp
    | some file =>
      simp only
      rw [readLoop_acc s n (c + 1) ([] ++ [file])]
      by_cases hex : fileExists file
      · rw [if_pos hex, ih]
        simp [hex]
      · rw [if_neg hex, ih]
        simp [hex]

theorem removeLastLoop_eq (n : Nat) (files : List String) (h : files.length ≤ n + 4) :
    removeLastLoop n files = files.take 4 := by
  induction n generalizing files with
  | zero =>
    unfold removeLastLoop
    rw [List.take_of_length_le (by omega)]
  | succ n ih =>
    unfold removeLastLoop
    by_cases hlen : files.length > 4
    · rw [if_pos hlen, ih files.dropLast (by rw [List.length_dropLast]; omega)]
      rw [List.dropLast_eq_take, List.take_take]
      congr 1
      omega
    · rw [if_neg hlen, List.take_of_length_le (by omega)]

theorem removeAtIndexOf_eq_erase (files : List String) (file : String) :
    removeAtIndexOf files file = files.erase file := by
  unfold removeAtIndexOf
  by_cases h : List.indexOf file files < files.length
  · simp only [h, if_true]
    exact List.eraseIdx_indexOf_eq_erase file files
  · simp only [h, if_false]
    have hmem : file ∉ files := fun hm => h (List.indexOf_lt_length.mpr hm)
    exact (List.erase_of_not_mem hmem).symm

theorem foldl_removeAtIndexOf (newFiles files : List String) :
    newFiles.foldl removeAtIndexOf files = newFiles.foldl List.erase files := by
  induction newFiles generalizing files with
  | nil => rfl
  | cons a l ih => simp only [List.foldl_cons, removeAtIndexOf_eq_erase, ih]

theorem foldl_prependIfExists (fileExists : String → Bool) (newFiles files : List String) :
    newFiles.foldl (prependIfExists fileExists) files =
      (newFiles.filter fileExists).reverse ++ files := by
  induction newFiles generalizing files with
  | nil => rfl
  | cons a l ih =>
    simp only [List.foldl_cons, ih, prependIfExists]
    by_cases h : fileExists a
    · simp [h, List.filter_cons]
    · simp [h, List.filter_cons]

theorem foldl_removeAll (failedFiles files : List String) :
    failedFiles.foldl removeAll files = files.filter (fun f => decide (f ∉ failedFiles)) := by
  induction failedFiles generalizing files with
  | nil => simp
  | cons a l ih =>
    simp only [List.foldl_cons, ih, removeAll, List.filter_filter]
    congr 1
    funext f
    by_cases h1 : f = a
    · simp [h1]
    · simp [h1]

/-! ## The stored list after each operation -/

theorem storedFiles_loadRecentFiles (fileExists : String → Bool) (w : MainWindow) :
    storedFiles (loadRecentFiles fileExists w).settings =
      (storedFiles w.settings).filter fileExists := by
  unfold loadRecentFiles
  simp only [loadLoop_eq, List.nil_append, Bool.false_or]
  by_cases hm : (readLoop w.settings 1 4 []).any (fun f => !fileExists f) = true
  · rw [if_pos hm, storedFiles_rewriteLoop]
    apply List.take_of_length_le
    exact le_trans (List.length_filter_le _ _) (storedFiles_length w.settings)
  · rw [if_neg hm]
    symm
    apply List.filter_eq_self.mpr
    intro a ha
    by_contra hex
    apply hm
    rw [List.any_eq_true]
    exact ⟨a, ha, by simpa using hex⟩

theorem addRecentFileList_eq (fileExists : String → Bool) (newFiles : List String)
    (s : Settings) :
    addRecentFileList fileExists newFiles s =
      ((newFiles.filter fileExists).reverse ++
        newFiles.foldl List.erase (storedFiles s)).take 4 := by
  unfold addRecentFileList
  simp only [removeLastLoop_eq _ _ (Nat.le_add_right _ 4), foldl_prependIfExists,
    foldl_removeAtIndexOf]
  rfl

theorem storedFiles_addRecentFile (fileExists : String → Bool) (newFiles : List String)
    (w : MainWindow) (hne : newFiles ≠ []) :
    storedFiles (addRecentFile fileExists newFiles w).settings =
      (((newFiles.filter fileExists).reverse ++
        newFiles.foldl List.erase (storedFiles w.settings)).take 4).filter fileExists := by
  unfold addRecentFile
  have h0 : newFiles.isEmpty = false := by
    cases newFiles with
    | nil => exact absurd rfl hne
    | cons a l => rfl
  simp only [h0, Bool.false_eq_true, if_false]
  rw [storedFiles_loadRecentFiles]
  simp only [storedFiles_writeLoop, addRecentFileList_eq, List.take_take, Nat.min_self]

theorem storedFiles_removeRecentFile (fileExists : String → Bool) (failedFiles : List String)
    (w : MainWindow) (hne : failedFiles ≠ []) :
    storedFiles (removeRecentFile fileExists failedFiles w).settings =
      ((storedFiles w.settings).filter (fun f => decide (f ∉ failedFiles))).filter
        fileExists := by
  unfold removeRecentFile
  have h0 : failedFiles.isEmpty = false := by
    cases failedFiles with
    | nil => exact absurd rfl hne
    | cons a l => rfl
  simp only [h0, Bool.false_eq_true, if_false]
  rw [storedFiles_loadRecentFiles]
  simp only [storedFiles_writeLoop, foldl_removeAll]
  rw [List.take_of_length_le]
  · rfl
  · exact le_trans (List.length_filter_le _ _) (storedFiles_length w.settings)

theorem storedFiles_addRecentFile_single (fileExists : String → Bool) (p : String)
    (w : MainWindow) (hex : fileExists p = true) :
    storedFiles (addRecentFile fileExists [p] w).settings =
      p :: (((storedFiles w.settings).erase p).take 3).filter fileExists := by
  rw [storedFiles_addRecentFile fileExists [p] w (by simp)]
  simp [List.filter_cons, hex]

theorem foldl_erase_of_nodup (newFiles files : List String) (h : files.Nodup) :
    newFiles.foldl List.erase files = files.filter (fun f => decide (f ∉ newFiles)) := by
  induction newFiles generalizing files with
  | nil => simp
  | cons a l ih =>
    rw [List.foldl_cons, ih (files.erase a) (h.erase a), List.Nodup.erase_eq_filter h,
      List.filter_filter]
    congr 1
    funext f
    by_cases h1 : f = a
    · simp [h1]
    · simp [h1]

theorem foldl_specStep (fileExists : String → Bool) (newFiles files : List String)
    (h : newFiles.Nodup) :
    newFiles.foldl
      (fun files p =>
        if fileExists p then p :: files.filter (fun f => f != p)
        else files.filter (fun f => f != p)) files =
      (newFiles.filter fileExists).reverse ++
        files.filter (fun f => decide (f ∉ newFiles)) := by
  induction newFiles generalizing files with
  | nil => simp
  | cons a l ih =>
    have hal : a ∉ l := (List.nodup_cons.mp h).1
    have hl : l.Nodup := (List.nodup_cons.mp h).2
    have hff : (files.filter (fun f => f != a)).filter (fun f => decide (f ∉ l)) =
        files.filter (fun f => decide (f ∉ a :: l)) := by
      rw [List.filter_filter]
      congr 1
      funext f
      by_cases h1 : f = a
      · simp [h1]
      · simp [h1]
    rw [List.foldl_cons]
    by_cases hex : fileExists a = true
    · rw [if_pos hex, ih _ hl, List.filter_cons_of_pos (by simpa using hal), hff,
        List.filter_cons_of_pos hex]
      simp
    · rw [if_neg hex, ih _ hl, hff, List.filter_cons_of_neg hex]

theorem foldl_specStep_of_exists (fileExists : String → Bool) (newFiles files : List String)
    (h : ∀ p ∈ newFiles, fileExists p = true) :
    newFiles.foldl
      (fun files p =>
        if fileExists p then p :: files.filter (fun f => f != p)
        else files.filter (fun f => f != p)) files =
      newFiles.foldl (fun files p => p :: files.filter (fun f => f != p)) files := by
  induction newFiles generalizing files with
  | nil => rfl
  | cons a l ih =>
    rw [List.foldl_cons, List.foldl_cons, if_pos (h a (List.mem_cons_self a l))]
    exact ih _ (fun p hp => h p (List.mem_cons_of_mem a hp))

theorem addRecentFileList_length (fileExists : String → Bool) (newFiles : List String)
    (s : Settings) : (addRecentFileList fileExists newFiles s).length ≤ 4 := by
  rw [addRecentFileList_eq]
  exact List.length_take_le 4 _

theorem addRecentFileList_eq_specAddExisting (fileExists : String → Bool)
    (newFiles : List String) (s : Settings) (hs : (storedFiles s).Nodup)
    (hn : newFiles.Nodup) :
    addRecentFileList fileExists newFiles s =
      specAddExisting fileExists (storedFiles s) newFiles := by
  rw [addRecentFileList_eq, foldl_erase_of_nodup newFiles _ hs]
  unfold specAddExisting
  rw [foldl_specStep fileExists newFiles _ hn]

/-- With a stored list and an argument list both free of duplicates, the three
operations leave a stored list free of duplicates. -/
theorem recentFiles_nodup_of_nodup (fileExists : String → Bool) (w : MainWindow)
    (args : List String) (hs : (storedFiles w.settings).Nodup) (hn : args.Nodup) :
    (storedFiles (loadRecentFiles fileExists w).settings).Nodup ∧
    (storedFiles (addRecentFile fileExists args w).settings).Nodup ∧
    (storedFiles (removeRecentFile fileExists args w).settings).Nodup := by
  refine ⟨?_, ?_, ?_⟩
  · rw [storedFiles_loadRecentFiles]
    exact hs.filter _
  · cases args with
    | nil => exact hs
    | cons a l =>
      rw [storedFiles_addRecentFile fileExists (a :: l) w (by simp),
        foldl_erase_of_nodup _ _ hs]
      apply List.Nodup.filter
      apply List.Nodup.sublist (List.take_sublist 4 _)
      rw [List.nodup_append]
      refine ⟨List.nodup_reverse.mpr (hn.filter _), hs.filter _, ?_⟩
      intro x hx hy
      have h1 : x ∈ a :: l := (List.mem_filter.mp (List.mem_reverse.mp hx)).1
      have h2 := (List.mem_filter.mp hy).2
      exact (of_decide_eq_true h2) h1
  · cases args with
    | nil => exact hs
    | cons a l =>
      rw [storedFiles_removeRecentFile fileExists (a :: l) w (by simp)]
      exact (hs.filter _).filter _

/-- C1: when the stored list has no duplicates and contains `p`, and the file
of `p` exists, `addRecentFile([p])` leaves a stored list that starts with `p`,
holds `p` exactly once, keeps the other entries in their previous relative
order (it is `p` followed by the previous entries other than `p` whose file
exists), and is not longer than before. -/
theorem addRecentFile_present_moves_to_front (fileExists : String → Bool) (w : MainWindow)
    (p : String) (hnodup : (storedFiles w.settings).Nodup)
    (hmem : p ∈ storedFiles w.settings) (hex : fileExists p = true) :
    (storedFiles (addRecentFile fileExists [p] w).settings).head? = some p ∧
    (storedFiles (addRecentFile fileExists [p] w).settings).count p = 1 ∧
    storedFiles (addRecentFile fileExists [p] w).settings =
      p :: ((storedFiles w.settings).erase p).filter fileExists ∧
    List.Sublist (storedFiles (addRecentFile fileExists [p] w).settings).tail
      (storedFiles w.settings) ∧
    (storedFiles (addRecentFile fileExists [p] w).settings).length ≤
      (storedFiles w.settings).length := by
  have hlen := storedFiles_length w.settings
  have hlen1 : ((storedFiles w.settings).erase p).length = (storedFiles w.settings).length - 1 :=
    List.length_erase_of_mem hmem
  have hpos : 0 < (storedFiles w.settings).length := List.length_pos_of_mem hmem
  have heq : storedFiles (addRecentFile fileExists [p] w).settings =
      p :: ((storedFiles w.settings).erase p).filter fileExists := by
    rw [storedFiles_addRecentFile_single fileExists p w hex,
      List.take_of_length_le (by omega)]
  have hnot : p ∉ ((storedFiles w.settings).erase p).filter fileExists := by
    intro h
    have h1 := (List.mem_filter.mp h).1
    exact ((List.Nodup.mem_erase_iff hnodup).mp h1).1 rfl
  rw [heq]
  refine ⟨rfl, ?_, rfl, ?_, ?_⟩
  · rw [List.count_cons_self, List.count_eq_zero_of_not_mem hnot]
  · exact (List.filter_sublist _).trans (List.erase_sublist p _)
  · have := List.length_filter_le fileExists ((storedFiles w.settings).erase p)
    simp only [List.length_cons]
    omega

/-- Witness for C1: the stored list `["/a", "/b", "/c"]` and `p = "/c"`. -/
theorem addRecentFile_present_moves_to_front_witness :
    storedFiles (addRecentFile (fun _ => true) ["/c"]
      (MainWindow.ofRecent ["/a", "/b", "/c"])).settings = ["/c", "/a", "/b"] :=
  (addRecentFile_present_moves_to_front (fun _ => true)
    (MainWindow.ofRecent ["/a", "/b", "/c"]) "/c" (by decide) (by decide) rfl).2.2.1

/-- C3: when the stored list is `[a, b, c, d]`, the four files exist, and `p`
is an existing path not among them, `addRecentFile([p])` leaves the stored list
`[p, a, b, c]`: the last entry is evicted, the others keep their order.  (The
four paths need not be assumed distinct for this.) -/
theorem addRecentFile_full_evicts_last (fileExists : String → Bool) (w : MainWindow)
    (a b c d p : String) (hstored : storedFiles w.settings = [a, b, c, d])
    (ha : fileExists a = true) (hb : fileExists b = true) (hc : fileExists c = true)
    (_hd : fileExists d = true) (hp : fileExists p = true) (hnew : p ∉ [a, b, c, d]) :
    storedFiles (addRecentFile fileExists [p] w).settings = [p, a, b, c] := by
  rw [storedFiles_addRecentFile_single fileExists p w hp, hstored,
    List.erase_of_not_mem hnew]
  simp [List.filter_cons, ha, hb, hc]

/-- Witness for C3: four stored paths and a fifth one. -/
theorem addRecentFile_full_evicts_last_witness :
    storedFiles (addRecentFile (fun _ => true) ["/e"]
      (MainWindow.ofRecent ["/a", "/b", "/c", "/d"])).settings = ["/e", "/a", "/b", "/c"] :=
  addRecentFile_full_evicts_last (fun _ => true) (MainWindow.ofRecent ["/a", "/b", "/c", "/d"])
    "/a" "/b" "/c" "/d" "/e" (by decide) rfl rfl rfl rfl rfl (by decide)

/-- C4: after `loadRecentFiles` the stored list is the previously stored list
filtered to the paths whose file exists, in the same order; no path without a
file remains in it. -/
theorem loadRecentFiles_prunes_and_persists (fileExists : String → Bool) (w : MainWindow) :
    storedFiles (loadRecentFiles fileExists w).settings =
      (storedFiles w.settings).filter fileExists ∧
    ∀ f ∈ storedFiles (loadRecentFiles fileExists w).settings, fileExists f = true := by
  rw [storedFiles_loadRecentFiles]
  exact ⟨rfl, fun f hf => (List.mem_filter.mp hf).2⟩

/-- Counterexample to C5 as stated: the stored path `/gone.ssrf` has no file
any more; removing `/other.ssrf`, which is not stored, empties the list. -/
theorem removeRecentFile_absent_counterexample :
    (∀ f ∈ ["/other.ssrf"],
      f ∉ storedFiles (MainWindow.ofRecent ["/gone.ssrf"]).settings) ∧
    storedFiles (removeRecentFile (fun f => f != "/gone.ssrf") ["/other.ssrf"]
      (MainWindow.ofRecent ["/gone.ssrf"])).settings ≠
      storedFiles (MainWindow.ofRecent ["/gone.ssrf"]).settings ∧
    storedFiles (MainWindow.ofRecent ["/gone.ssrf"]).settings = ["/gone.ssrf"] ∧
    storedFiles (removeRecentFile (fun f => f != "/gone.ssrf") ["/other.ssrf"]
      (MainWindow.ofRecent ["/gone.ssrf"])).settings = [] := by
  decide

/-- C5 (amended): when no path of `failedFiles` occurs in the stored list,
`removeRecentFile` removes none of the stored paths itself: the stored list is
unchanged when `failedFiles` is empty, and otherwise it is the previous list
with the paths whose file does not exist pruned by the `loadRecentFiles` call
that ends the operation; so it is unchanged whenever the file of every stored
path exists. -/
theorem removeRecentFile_absent (fileExists : String → Bool) (w : MainWindow)
    (failedFiles : List String)
    (habs : ∀ f ∈ failedFiles, f ∉ storedFiles w.settings) :
    storedFiles (removeRecentFile fileExists failedFiles w).settings =
      (if failedFiles.isEmpty then storedFiles w.settings
       else (storedFiles w.settings).filter fileExists) ∧
    ((∀ f ∈ storedFiles w.settings, fileExists f = true) →
      storedFiles (removeRecentFile fileExists failedFiles w).settings =
        storedFiles w.settings) := by
  have hkeep : (storedFiles w.settings).filter (fun f => decide (f ∉ failedFiles)) =
      storedFiles w.settings := by
    apply List.filter_eq_self.mpr
    intro a ha
    simpa using fun h => habs a h ha
  cases failedFiles with
  | nil => exact ⟨rfl, fun _ => rfl⟩
  | cons a l =>
    rw [storedFiles_removeRecentFile fileExists (a :: l) w (by simp), hkeep]
    refine ⟨rfl, fun hall => ?_⟩
    exact List.filter_eq_self.mpr hall

/-- Witness for C5 (amended): two stored paths whose files exist, and the
removal of a third path. -/
theorem removeRecentFile_absent_witness :
    storedFiles (removeRecentFile (fun _ => true) ["/c"]
      (MainWindow.ofRecent ["/a", "/b"])).settings = ["/a", "/b"] :=
  ((removeRecentFile_absent (fun _ => true) (MainWindow.ofRecent ["/a", "/b"]) ["/c"]
    (by decide)).2 (by decide)).trans (by decide)

/-- C6: for a non-empty `failedFiles`, after `removeRecentFile(failedFiles)` no
path of `failedFiles` occurs in the stored list, and the stored list consists
of previously stored entries in their previous relative order (it is the
previous list without the paths of `failedFiles` and without the paths whose
file does not exist). -/
theorem removeRecentFile_removes_all (fileExists : String → Bool) (w : MainWindow)
    (failedFiles : List String) (hne : failedFiles ≠ []) :
    (∀ f ∈ failedFiles,
      f ∉ storedFiles (removeRecentFile fileExists failedFiles w).settings) ∧
    List.Sublist (storedFiles (removeRecentFile fileExists failedFiles w).settings)
      (storedFiles w.settings) ∧
    storedFiles (removeRecentFile fileExists failedFiles w).settings =
      (storedFiles w.settings).filter (fun f => decide (f ∉ failedFiles) && fileExists f) := by
  rw [storedFiles_removeRecentFile fileExists failedFiles w hne]
  refine ⟨fun f hf hmem => ?_, ?_, ?_⟩
  · have h1 := (List.mem_filter.mp (List.mem_filter.mp hmem).1).2
    exact (of_decide_eq_true h1) hf
  · exact (List.filter_sublist _).trans (List.filter_sublist _)
  · rw [List.filter_filter]
    congr 1
    funext f
    exact Bool.and_comm _ _

/-- Witness for C6: a path stored twice is removed at both places. -/
theorem removeRecentFile_removes_all_witness :
    storedFiles (removeRecentFile (fun _ => true) ["/a"]
      (MainWindow.ofRecent ["/a", "/b", "/a"])).settings = ["/b"] :=
  (removeRecentFile_removes_all (fun _ => true) (MainWindow.ofRecent ["/a", "/b", "/a"])
    ["/a"] (by decide)).2.2.trans (by decide)

/-- C7, the code at the failing input: with an empty stored list (which has
no duplicates), `addRecentFile(["/a.ssrf", "/a.ssrf"])` stores the path
twice. -/
theorem addRecentFile_duplicate_argument :
    (storedFiles (MainWindow.ofRecent []).settings).Nodup ∧
    storedFiles (addRecentFile (fun _ => true) ["/a.ssrf", "/a.ssrf"]
      (MainWindow.ofRecent [])).settings = ["/a.ssrf", "/a.ssrf"] ∧
    ¬ (storedFiles (addRecentFile (fun _ => true) ["/a.ssrf", "/a.ssrf"]
      (MainWindow.ofRecent [])).settings).Nodup := by
  decide

/-- Counterexample to C8 as stated: four stored paths whose files exist and a
new path `/gone.ssrf` whose file does not.  The code writes the old list back
unchanged, while the procedure of the specification puts `/gone.ssrf` in front
and evicts `/d`; the lists differ before and after `loadRecentFiles`. -/
theorem addRecentFile_refines_spec_counterexample :
    storedFiles (writeLoop (addRecentFileList (fun f => f != "/gone.ssrf") ["/gone.ssrf"]
      (MainWindow.ofRecent ["/a", "/b", "/c", "/d"]).settings) 1 4
      (MainWindow.ofRecent ["/a", "/b", "/c", "/d"]).settings) ≠
      specAdd (storedFiles (MainWindow.ofRecent ["/a", "/b", "/c", "/d"]).settings)
        ["/gone.ssrf"] ∧
    storedFiles (addRecentFile (fun f => f != "/gone.ssrf") ["/gone.ssrf"]
      (MainWindow.ofRecent ["/a", "/b", "/c", "/d"])).settings ≠
      specAdd (storedFiles (MainWindow.ofRecent ["/a", "/b", "/c", "/d"]).settings)
        ["/gone.ssrf"] ∧
    storedFiles (addRecentFile (fun f => f != "/gone.ssrf") ["/gone.ssrf"]
      (MainWindow.ofRecent ["/a", "/b", "/c", "/d"])).settings ≠
      (specAdd (storedFiles (MainWindow.ofRecent ["/a", "/b", "/c", "/d"]).settings)
        ["/gone.ssrf"]).filter (fun f => f != "/gone.ssrf") ∧
    addRecentFileList (fun f => f != "/gone.ssrf") ["/gone.ssrf"]
      (MainWindow.ofRecent ["/a", "/b", "/c", "/d"]).settings = ["/a", "/b", "/c", "/d"] ∧
    storedFiles (addRecentFile (fun f => f != "/gone.ssrf") ["/gone.ssrf"]
      (MainWindow.ofRecent ["/a", "/b", "/c", "/d"])).settings = ["/a", "/b", "/c", "/d"] ∧
    specAdd (storedFiles (MainWindow.ofRecent ["/a", "/b", "/c", "/d"]).settings)
      ["/gone.ssrf"] = ["/gone.ssrf", "/a", "/b", "/c"] := by
  decide

/-- C8 (amended): for a stored list without duplicates and a non-empty
`newFiles` without duplicates, the list `addRecentFile` writes to the settings
is the result of the procedure of the specification with the guard of the
code (for each new path in order, remove every occurrence of it and prepend it
if its file exists; keep the first 4 entries); it is the result of the
procedure of the specification itself when the file of every new path exists.
The list stored when `addRecentFile` returns is that list with the paths whose
file does not exist pruned. -/
theorem addRecentFile_refines_spec (fileExists : String → Bool) (w : MainWindow)
    (newFiles : List String) (hne : newFiles ≠ [])
    (hs : (storedFiles w.settings).Nodup) (hn : newFiles.Nodup) :
    storedFiles (writeLoop (addRecentFileList fileExists newFiles w.settings) 1 4 w.settings) =
      specAddExisting fileExists (storedFiles w.settings) newFiles ∧
    ((∀ p ∈ newFiles, fileExists p = true) →
      storedFiles (writeLoop (addRecentFileList fileExists newFiles w.settings) 1 4
        w.settings) = specAdd (storedFiles w.settings) newFiles) ∧
    storedFiles (addRecentFile fileExists newFiles w).settings =
      (specAddExisting fileExists (storedFiles w.settings) newFiles).filter fileExists := by
  have hw : storedFiles (writeLoop (addRecentFileList fileExists newFiles w.settings) 1 4
      w.settings) = specAddExisting fileExists (storedFiles w.settings) newFiles := by
    rw [storedFiles_writeLoop,
      List.take_of_length_le (addRecentFileList_length fileExists newFiles w.settings)]
    exact addRecentFileList_eq_specAddExisting fileExists newFiles w.settings hs hn
  refine ⟨hw, fun hall => ?_, ?_⟩
  · rw [hw]
    unfold specAddExisting specAdd
    rw [foldl_specStep_of_exists fileExists newFiles _ hall]
  · rw [storedFiles_addRecentFile fileExists newFiles w hne, ← addRecentFileList_eq,
      addRecentFileList_eq_specAddExisting fileExists newFiles w.settings hs hn]

/-- Witness for C8 (amended): two new paths, one of them already stored. -/
theorem addRecentFile_refines_spec_witness :
    storedFiles (addRecentFile (fun _ => true) ["/b", "/x"]
      (MainWindow.ofRecent ["/a", "/b", "/c", "/d"])).settings = ["/x", "/b", "/a", "/c"] :=
  ((addRecentFile_refines_spec (fun _ => true) (MainWindow.ofRecent ["/a", "/b", "/c", "/d"])
    ["/b", "/x"] (by decide) (by decide) (by decide)).2.2).trans (by decide)

/-! ## Loading files and saving -/

theorem loadRecentFiles_parsed (fileExists : String → Bool) (w : MainWindow) :
    (loadRecentFiles fileExists w).parsed = w.parsed := rfl

theorem loadRecentFiles_unsaved (fileExists : String → Bool) (w : MainWindow) :
    (loadRecentFiles fileExists w).unsaved = w.unsaved := rfl

theorem addRecentFile_parsed (fileExists : String → Bool) (newFiles : List String)
    (w : MainWindow) : (addRecentFile fileExists newFiles w).parsed = w.parsed := by
  unfold addRecentFile
  split <;> rfl

theorem addRecentFile_unsaved (fileExists : String → Bool) (newFiles : List String)
    (w : MainWindow) : (addRecentFile fileExists newFiles w).unsaved = w.unsaved := by
  unfold addRecentFile
  split <;> rfl

theorem removeRecentFile_parsed (fileExists : String → Bool) (failedFiles : List String)
    (w : MainWindow) : (removeRecentFile fileExists failedFiles w).parsed = w.parsed := by
  unfold removeRecentFile
  split <;> rfl

theorem parseLoop_cons (env : Env) (file : String) (rest : List String) (w : MainWindow)
    (failedParses : List String) :
    parseLoop env (file :: rest) w failedParses =
      if (env.parse_file w file).1 = 0 then
        parseLoop env rest
          { w with
            parsed := w.parsed ++ [file],
            dive_table_nr := w.dive_table_nr + (env.parse_file w file).2,
            existing_filename := some file } failedParses
      else
        parseLoop env rest
          { w with
            parsed := w.parsed ++ [file],
            dive_table_nr := w.dive_table_nr + (env.parse_file w file).2 }
          (failedParses ++ [file]) := rfl

theorem parseLoop_parsed (env : Env) (fileNames : List String) (w : MainWindow)
    (failedParses : List String) :
    (parseLoop env fileNames w failedParses).1.parsed = w.parsed ++ fileNames := by
  induction fileNames generalizing w failedParses with
  | nil => simp [parseLoop]
  | cons a l ih =>
    unfold parseLoop
    simp only
    split
    · rw [ih]
      simp
    · rw [ih]
      simp

theorem parseLoop_append (env : Env) (l1 l2 : List String) (w : MainWindow)
    (failedParses : List String) :
    parseLoop env (l1 ++ l2) w failedParses =
      parseLoop env l2 (parseLoop env l1 w failedParses).1
        (parseLoop env l1 w failedParses).2 := by
  induction l1 generalizing w failedParses with
  | nil => rfl
  | cons a l ih =>
    rw [List.cons_append, parseLoop_cons env a (l ++ l2), parseLoop_cons env a l]
    by_cases h : (env.parse_file w a).1 = 0
    · rw [if_pos h, if_pos h, ih]
    · rw [if_neg h, if_neg h, ih]

theorem parseLoop_failed_mono (env : Env) (fileNames : List String) (w : MainWindow)
    (failedParses : List String) (x : String) (hx : x ∈ failedParses) :
    x ∈ (parseLoop env fileNames w failedParses).2 := by
  induction fileNames generalizing w failedParses with
  | nil => exact hx
  | cons a l ih =>
    unfold parseLoop
    simp only
    split
    · exact ih _ _ hx
    · exact ih _ _ (List.mem_append_left _ hx)

/-- A file whose `parse_file` call returns an error ends up in `failedParses`. -/
theorem parseLoop_failed_mem (env : Env) (fileNames : List String) (w : MainWindow)
    (i : Nat) (hi : i < fileNames.length)
    (herr : (env.parse_file (parseLoop env (fileNames.take i) w []).1 fileNames[i]).1 ≠ 0) :
    fileNames[i] ∈ (parseLoop env fileNames w []).2 := by
  have hsplit : fileNames = fileNames.take i ++ fileNames[i] :: fileNames.drop (i + 1) := by
    rw [← List.drop_eq_getElem_cons hi, List.take_append_drop]
  have hstep : parseLoop env fileNames w [] =
      parseLoop env (fileNames[i] :: fileNames.drop (i + 1))
        (parseLoop env (fileNames.take i) w []).1 (parseLoop env (fileNames.take i) w []).2 := by
    rw [← parseLoop_append, ← hsplit]
  rw [hstep, parseLoop_cons, if_neg herr]
  exact parseLoop_failed_mono env _ _ _ _ (List.mem_append_right _ (List.mem_singleton_self _))

/-- C9: for a non-empty `fileNames`, `loadFiles` calls `parse_file` on each
file once, in order, whatever the calls return, and a path whose `parse_file`
call (made in the state the earlier calls left) returned an error does not
occur in the stored recent-file list afterwards. -/
theorem loadFiles_excludes_failed_parses (env : Env) (w : MainWindow)
    (fileNames : List String) (hne : fileNames ≠ []) :
    (loadFiles env fileNames w).parsed = w.parsed ++ fileNames ∧
    ∀ (i : Nat) (hi : i < fileNames.length),
      (env.parse_file (parseLoop env (fileNames.take i) w []).1 fileNames[i]).1 ≠ 0 →
        fileNames[i] ∉ storedFiles (loadFiles env fileNames w).settings := by
  have h0 : fileNames.isEmpty = false := by
    cases fileNames with
    | nil => exact absurd rfl hne
    | cons a l => rfl
  unfold loadFiles
  simp only [h0, Bool.false_eq_true, if_false]
  refine ⟨?_, fun i hi herr => ?_⟩
  · rw [removeRecentFile_parsed, addRecentFile_parsed]
    exact parseLoop_parsed env fileNames w []
  · have hmem := parseLoop_failed_mem env fileNames w i hi herr
    have hfne : (parseLoop env fileNames w []).2 ≠ [] := List.ne_nil_of_mem hmem
    rw [storedFiles_removeRecentFile _ _ _ hfne]
    intro hin
    have h1 := (List.mem_filter.mp (List.mem_filter.mp hin).1).2
    exact (of_decide_eq_true h1) hmem

/-- Witness for C9: of three files the second fails to parse; it was in the
recent list before and is not afterwards, and all three are parsed. -/
theorem loadFiles_excludes_failed_parses_witness :
    (loadFiles (Env.simple ["/bad.xml"] false) ["/a.xml", "/bad.xml", "/c.xml"]
      (MainWindow.ofRecent ["/bad.xml"])).parsed = ["/a.xml", "/bad.xml", "/c.xml"] ∧
    "/bad.xml" ∉ storedFiles (loadFiles (Env.simple ["/bad.xml"] false)
      ["/a.xml", "/bad.xml", "/c.xml"] (MainWindow.ofRecent ["/bad.xml"])).settings :=
  ⟨(loadFiles_excludes_failed_parses (Env.simple ["/bad.xml"] false)
      (MainWindow.ofRecent ["/bad.xml"]) ["/a.xml", "/bad.xml", "/c.xml"] (by decide)).1,
    (loadFiles_excludes_failed_parses (Env.simple ["/bad.xml"] false)
      (MainWindow.ofRecent ["/bad.xml"]) ["/a.xml", "/bad.xml", "/c.xml"] (by decide)).2
      1 (by decide) (by decide)⟩

theorem file_save_of_ok (env : Env) (w : MainWindow) (existing : String)
    (hfn : w.existing_filename = some existing)
    (hok : env.save_dives (if w.isEditing then env.acceptChanges w else w)
      (if w.isEditing then env.acceptChanges w else w).existing_filename = 0) :
    file_save env w =
      (0, addRecentFile env.fileExists
        [(if w.isEditing then env.acceptChanges w else w).existing_filename.getD ""]
        { (if w.isEditing then env.acceptChanges w else w) with unsaved := false }) := by
  unfold file_save
  rw [hfn]
  simp only
  rw [if_neg (fun h => h hok)]

theorem file_save_of_fail (env : Env) (w : MainWindow) (existing : String)
    (hfn : w.existing_filename = some existing)
    (hfail : env.save_dives (if w.isEditing then env.acceptChanges w else w)
      (if w.isEditing then env.acceptChanges w else w).existing_filename ≠ 0) :
    file_save env w = (-1, (if w.isEditing then env.acceptChanges w else w)) := by
  unfold file_save
  rw [hfn]
  simp only
  rw [if_pos hfail]

/-- Counterexample to C10 as stated: `/log.ssrf` is open with no unsaved
changes and an edit in progress; `acceptChanges` marks the dive list as
changed, and `save_dives` fails.  `file_save` returns -1 and the
unsaved-changes flag has gone from false to true. -/
theorem file_save_with_filename_counterexample :
    ({ MainWindow.ofRecent ["/a"] with
      existing_filename := some "/log.ssrf", isEditing := true } : MainWindow).unsaved
      = false ∧
    (file_save
      { Env.simple [] true with
        acceptChanges := fun w => { w with isEditing := false, unsaved := true } }
      { MainWindow.ofRecent ["/a"] with
        existing_filename := some "/log.ssrf", isEditing := true }).1 = -1 ∧
    (file_save
      { Env.simple [] true with
        acceptChanges := fun w => { w with isEditing := false, unsaved := true } }
      { MainWindow.ofRecent ["/a"] with
        existing_filename := some "/log.ssrf", isEditing := true }).2.unsaved = true := by
  decide

/-- C10 (amended): when a current file name is set, `file_save` first has a
pending edit accepted and then returns 0 exactly when `save_dives` succeeded.
In that case the unsaved-changes flag is cleared and `addRecentFile` is run on
the file name.  When `save_dives` fails, `file_save` returns -1 and leaves the
state as it was when `save_dives` was called.  With no edit in progress that
is the state it started in: the flag and the stored recent-file list are
unchanged on failure, and on success the file name is first in the stored list
when its file exists. -/
theorem file_save_with_filename (env : Env) (w : MainWindow) (existing : String)
    (hfn : w.existing_filename = some existing) :
    ((file_save env w).1 = 0 ↔
      env.save_dives (if w.isEditing then env.acceptChanges w else w)
        (if w.isEditing then env.acceptChanges w else w).existing_filename = 0) ∧
    (env.save_dives (if w.isEditing then env.acceptChanges w else w)
        (if w.isEditing then env.acceptChanges w else w).existing_filename = 0 →
      (file_save env w).1 = 0 ∧
      (file_save env w).2.unsaved = false ∧
      (file_save env w).2 = addRecentFile env.fileExists
        [(if w.isEditing then env.acceptChanges w else w).existing_filename.getD ""]
        { (if w.isEditing then env.acceptChanges w else w) with unsaved := false }) ∧
    (env.save_dives (if w.isEditing then env.acceptChanges w else w)
        (if w.isEditing then env.acceptChanges w else w).existing_filename ≠ 0 →
      (file_save env w).1 = -1 ∧
      (file_save env w).2 = (if w.isEditing then env.acceptChanges w else w)) ∧
    (w.isEditing = false →
      ((file_save env w).1 = 0 ↔ env.save_dives w (some existing) = 0) ∧
      (env.save_dives w (some existing) = 0 →
        (file_save env w).2 =
          addRecentFile env.fileExists [existing] { w with unsaved := false } ∧
        (file_save env w).2.unsaved = false ∧
        (env.fileExists existing = true →
          (storedFiles (file_save env w).2.settings).head? = some existing)) ∧
      (env.save_dives w (some existing) ≠ 0 →
        (file_save env w).1 = -1 ∧
        (file_save env w).2 = w ∧
        (file_save env w).2.unsaved = w.unsaved ∧
        storedFiles (file_save env w).2.settings = storedFiles w.settings)) := by
  have hiff : (file_save env w).1 = 0 ↔
      env.save_dives (if w.isEditing then env.acceptChanges w else w)
        (if w.isEditing then env.acceptChanges w else w).existing_filename = 0 := by
    by_cases hok : env.save_dives (if w.isEditing then env.acceptChanges w else w)
        (if w.isEditing then env.acceptChanges w else w).existing_filename = 0
    · rw [file_save_of_ok env w existing hfn hok]
      exact ⟨fun _ => hok, fun _ => rfl⟩
    · rw [file_save_of_fail env w existing hfn hok]
      exact ⟨fun h1 => absurd (show (-1 : Int) = 0 from h1) (by decide),
        fun h1 => absurd h1 hok⟩
  have hsucc : env.save_dives (if w.isEditing then env.acceptChanges w else w)
        (if w.isEditing then env.acceptChanges w else w).existing_filename = 0 →
      (file_save env w).1 = 0 ∧
      (file_save env w).2.unsaved = false ∧
      (file_save env w).2 = addRecentFile env.fileExists
        [(if w.isEditing then env.acceptChanges w else w).existing_filename.getD ""]
        { (if w.isEditing then env.acceptChanges w else w) with unsaved := false } := by
    intro hok
    rw [file_save_of_ok env w existing hfn hok]
    exact ⟨rfl, addRecentFile_unsaved _ _ _, rfl⟩
  have hfailed : env.save_dives (if w.isEditing then env.acceptChanges w else w)
        (if w.isEditing then env.acceptChanges w else w).existing_filename ≠ 0 →
      (file_save env w).1 = -1 ∧
      (file_save env w).2 = (if w.isEditing then env.acceptChanges w else w) := by
    intro hfail
    rw [file_save_of_fail env w existing hfn hfail]
    exact ⟨rfl, rfl⟩
  refine ⟨hiff, hsucc, hfailed, fun hed => ?_⟩
  have hw : (if w.isEditing = true then env.acceptChanges w else w) = w := by
    rw [hed]
    rfl
  rw [hw, hfn] at hiff hsucc hfailed
  refine ⟨hiff, fun hok => ?_, fun hfail => ?_⟩
  · have h := hsucc hok
    rw [Option.getD_some] at h
    refine ⟨h.2.2, h.2.1, fun hex => ?_⟩
    rw [h.2.2, storedFiles_addRecentFile_single _ _ _ hex]
    rfl
  · have h := hfailed hfail
    rw [h.2]
    exact ⟨h.1, rfl, rfl, rfl⟩

/-- Witness for C10 (amended): a failing save of `/log.ssrf` with unsaved
changes and no edit in progress. -/
theorem file_save_with_filename_witness :
    (file_save (Env.simple [] true)
      { MainWindow.ofRecent ["/a"] with
        existing_filename := some "/log.ssrf", unsaved := true }).1 = -1 ∧
    (file_save (Env.simple [] true)
      { MainWindow.ofRecent ["/a"] with
        existing_filename := some "/log.ssrf", unsaved := true }).2.unsaved = true :=
  ⟨(((file_save_with_filename (Env.simple [] true)
      { MainWindow.ofRecent ["/a"] with
        existing_filename := some "/log.ssrf", unsaved := true }
      "/log.ssrf" rfl).2.2.2 rfl).2.2 (by decide)).1,
    (((file_save_with_filename (Env.simple [] true)
      { MainWindow.ofRecent ["/a"] with
        existing_filename := some "/log.ssrf", unsaved := true }
      "/log.ssrf" rfl).2.2.2 rfl).2.2 (by decide)).2.2.1⟩

/-! ## Closing and quitting -/

theorem deleteLoop_nr (n : Nat) (w : MainWindow) (h : w.dive_table_nr ≤ n) :
    (deleteLoop n w).dive_table_nr = 0 := by
  induction n generalizing w with
  | zero =>
    unfold deleteLoop
    omega
  | succ n ih =>
    unfold deleteLoop
    by_cases h0 : w.dive_table_nr ≠ 0
    · rw [if_pos h0]
      apply ih
      show w.dive_table_nr - 1 ≤ n
      omega
    · rw [if_neg h0]
      exact not_not.mp h0

theorem closeFile_clean (w : MainWindow) :
    (closeFile w).unsaved = false ∧ (closeFile w).dive_table_nr = 0 ∧
    (closeFile w).existing_filename = none ∧ (closeFile w).selected_dive = -1 :=
  ⟨rfl, deleteLoop_nr w.dive_table_nr w (le_refl _), rfl, rfl⟩

theorem askSaveChanges_of_other (env : Env) (w : MainWindow)
    (hs : env.exec w ≠ QMessageBox.Save) (hd : env.exec w ≠ QMessageBox.Discard) :
    askSaveChanges env w = (false, { w with asked := w.asked + 1 }) := by
  unfold askSaveChanges
  simp only [if_neg hs, if_neg hd]

theorem askSaveChanges_of_discard (env : Env) (w : MainWindow)
    (hd : env.exec w = QMessageBox.Discard) :
    askSaveChanges env w = (true, { w with asked := w.asked + 1 }) := by
  unfold askSaveChanges
  have hs : env.exec w ≠ QMessageBox.Save := by
    rw [hd]
    decide
  simp only [if_neg hs, if_pos hd]

theorem askSaveChanges_of_save (env : Env) (w : MainWindow)
    (hs : env.exec w = QMessageBox.Save) :
    askSaveChanges env w = (true, (file_save env { w with asked := w.asked + 1 }).2) := by
  unfold askSaveChanges
  simp only [if_pos hs]

theorem on_actionClose_of_submode (env : Env) (w : MainWindow)
    (h : w.plannerMode ≠ PlannerMode.NOTHING ∨ w.isEditing = true) :
    on_actionClose_triggered env w = { w with warned := w.warned + 1 } := by
  unfold on_actionClose_triggered
  rw [if_pos h]

theorem on_actionClose_of_cancel (env : Env) (w : MainWindow)
    (hp : w.plannerMode = PlannerMode.NOTHING) (he : w.isEditing = false)
    (hu : w.unsaved = true)
    (hs : env.exec w ≠ QMessageBox.Save) (hd : env.exec w ≠ QMessageBox.Discard) :
    on_actionClose_triggered env w = { w with asked := w.asked + 1 } := by
  unfold on_actionClose_triggered
  have h : ¬ (w.plannerMode ≠ PlannerMode.NOTHING ∨ w.isEditing = true) := by
    simp [hp, he]
  rw [if_neg h, if_pos hu]
  simp only [askSaveChanges_of_other env w hs hd, if_true]

/-- C11: when the planner mode is not `NOTHING` or the info widget is editing,
`on_actionClose_triggered` only shows its warning: no dive is deleted, the
file name, the selection and the unsaved-changes flag stay as they are, and the
save-changes question is not asked. -/
theorem on_actionClose_blocked (env : Env) (w : MainWindow)
    (h : w.plannerMode ≠ PlannerMode.NOTHING ∨ w.isEditing = true) :
    on_actionClose_triggered env w = { w with warned := w.warned + 1 } ∧
    (on_actionClose_triggered env w).dive_table_nr = w.dive_table_nr ∧
    (on_actionClose_triggered env w).existing_filename = w.existing_filename ∧
    (on_actionClose_triggered env w).selected_dive = w.selected_dive ∧
    (on_actionClose_triggered env w).unsaved = w.unsaved ∧
    (on_actionClose_triggered env w).asked = w.asked := by
  rw [on_actionClose_of_submode env w h]
  exact ⟨rfl, rfl, rfl, rfl, rfl, rfl⟩

/-- Witness for C11: three dives, unsaved changes, and an edit in progress. -/
theorem on_actionClose_blocked_witness :
    (on_actionClose_triggered (Env.simple [] false)
      { MainWindow.ofRecent [] with
        isEditing := true, unsaved := true, dive_table_nr := 3 }).dive_table_nr = 3 :=
  (on_actionClose_blocked (Env.simple [] false)
    { MainWindow.ofRecent [] with isEditing := true, unsaved := true, dive_table_nr := 3 }
    (Or.inr rfl)).2.1

/-- C12: with no editor or planner sub-mode active and unsaved changes, when
the user answers Discard, `on_actionClose_triggered` ends with the
unsaved-changes flag false, an empty dive table (the delete loop ends with
`dive_table.nr = 0`), no current file name and `selected_dive = -1`. -/
theorem on_actionClose_discard_clean (env : Env) (w : MainWindow)
    (hp : w.plannerMode = PlannerMode.NOTHING) (he : w.isEditing = false)
    (hu : w.unsaved = true) (hd : env.exec w = QMessageBox.Discard) :
    (on_actionClose_triggered env w).unsaved = false ∧
    (on_actionClose_triggered env w).dive_table_nr = 0 ∧
    (on_actionClose_triggered env w).existing_filename = none ∧
    (on_actionClose_triggered env w).selected_dive = -1 := by
  unfold on_actionClose_triggered
  have h : ¬ (w.plannerMode ≠ PlannerMode.NOTHING ∨ w.isEditing = true) := by
    simp [hp, he]
  rw [if_neg h, if_pos hu]
  simp only [askSaveChanges_of_discard env w hd, Bool.true_eq_false, if_false]
  exact closeFile_clean _

/-- Witness for C12: three dives of `/log.ssrf` with unsaved changes, and the
answer Discard. -/
theorem on_actionClose_discard_clean_witness :
    (on_actionClose_triggered
      { Env.simple [] false with exec := fun _ => QMessageBox.Discard }
      { MainWindow.ofRecent [] with
        existing_filename := some "/log.ssrf", unsaved := true, dive_table_nr := 3,
        selected_dive := 2 }).dive_table_nr = 0 :=
  (on_actionClose_discard_clean
    { Env.simple [] false with exec := fun _ => QMessageBox.Discard }
    { MainWindow.ofRecent [] with
      existing_filename := some "/log.ssrf", unsaved := true, dive_table_nr := 3,
      selected_dive := 2 } rfl rfl rfl rfl).2.1

theorem writeLoop_slots (files : List String) (s : Settings) (hlen : files.length ≤ 4)
    (k : Nat) (h1 : 1 ≤ k) (h4 : k ≤ 4) :
    writeLoop files 1 4 s k = (storedFiles (writeLoop files 1 4 s))[k - 1]? := by
  rw [storedFiles_writeLoop, List.take_of_length_le hlen, writeLoop_apply files 4 1 s k
    (le_refl 1), if_pos ⟨h1, by omega⟩]

theorem loadRecentFiles_settings (fileExists : String → Bool) (w : MainWindow) :
    (loadRecentFiles fileExists w).settings =
      if (storedFiles w.settings).any (fun f => !fileExists f) = true then
        rewriteLoop ((storedFiles w.settings).filter fileExists) 0 4 w.settings
      else w.settings := by
  unfold loadRecentFiles
  simp only [loadLoop_eq, List.nil_append, Bool.false_or]
  rfl

theorem loadRecentFiles_slots (fileExists : String → Bool) (w : MainWindow)
    (hn : ∀ k, 1 ≤ k → k ≤ 4 → w.settings k = (storedFiles w.settings)[k - 1]?)
    (k : Nat) (h1 : 1 ≤ k) (h4 : k ≤ 4) :
    (loadRecentFiles fileExists w).settings k =
      (storedFiles (loadRecentFiles fileExists w).settings)[k - 1]? := by
  rw [loadRecentFiles_settings]
  by_cases hm : (storedFiles w.settings).any (fun f => !fileExists f) = true
  · rw [if_pos hm, rewriteLoop_eq_writeLoop]
    apply writeLoop_slots _ _ _ k h1 h4
    exact le_trans (List.length_filter_le _ _) (storedFiles_length w.settings)
  · rw [if_neg hm]
    exact hn k h1 h4

theorem addRecentFile_slots (fileExists : String → Bool) (newFiles : List String)
    (w : MainWindow) (hne : newFiles ≠ []) (k : Nat) (h1 : 1 ≤ k) (h4 : k ≤ 4) :
    (addRecentFile fileExists newFiles w).settings k =
      (storedFiles (addRecentFile fileExists newFiles w).settings)[k - 1]? := by
  unfold addRecentFile
  have h0 : newFiles.isEmpty = false := by
    cases newFiles with
    | nil => exact absurd rfl hne
    | cons a l => rfl
  simp only [h0, Bool.false_eq_true, if_false]
  apply loadRecentFiles_slots _ _ _ k h1 h4
  intro j hj1 hj4
  exact writeLoop_slots _ _ (addRecentFileList_length fileExists newFiles w.settings) j hj1 hj4

theorem removeRecentFile_slots (fileExists : String → Bool) (failedFiles : List String)
    (w : MainWindow) (hne : failedFiles ≠ []) (k : Nat) (h1 : 1 ≤ k) (h4 : k ≤ 4) :
    (removeRecentFile fileExists failedFiles w).settings k =
      (storedFiles (removeRecentFile fileExists failedFiles w).settings)[k - 1]? := by
  unfold removeRecentFile
  have h0 : failedFiles.isEmpty = false := by
    cases failedFiles with
    | nil => exact absurd rfl hne
    | cons a l => rfl
  simp only [h0, Bool.false_eq_true, if_false]
  apply loadRecentFiles_slots _ _ _ k h1 h4
  intro j hj1 hj4
  apply writeLoop_slots _ _ _ j hj1 hj4
  rw [foldl_removeAll]
  exact le_trans (List.length_filter_le _ _) (storedFiles_length w.settings)

theorem contains_iff_of_slot (s : Settings) (files : List String) (k : Nat) (h1 : 1 ≤ k)
    (h : s k = files[k - 1]?) : s.contains k = true ↔ k ≤ files.length := by
  unfold Settings.contains
  rw [h]
  by_cases hlt : k - 1 < files.length
  · rw [List.getElem?_eq_getElem hlt]
    simp only [Option.isSome_some, true_iff]
    omega
  · rw [List.getElem?_eq_none (by omega)]
    simp only [Option.isSome_none, Bool.false_eq_true, false_iff]
    omega

/-- C15: for every settings state and every non-empty argument list, after
`addRecentFile` and after `removeRecentFile` each slot `File_k`, `1 ≤ k ≤ 4`,
holds entry `k` of the stored list and is absent when the list has fewer than
`k` entries: the keys present are exactly `File_1..File_n` for the `n` entries
of the list read back from the slots. -/
theorem recentFiles_storage_normal_form (fileExists : String → Bool) (w : MainWindow)
    (args : List String) (hne : args ≠ []) (k : Nat) (h1 : 1 ≤ k) (h4 : k ≤ 4) :
    ((addRecentFile fileExists args w).settings k =
        (storedFiles (addRecentFile fileExists args w).settings)[k - 1]? ∧
      ((addRecentFile fileExists args w).settings.contains k = true ↔
        k ≤ (storedFiles (addRecentFile fileExists args w).settings).length)) ∧
    ((removeRecentFile fileExists args w).settings k =
        (storedFiles (removeRecentFile fileExists args w).settings)[k - 1]? ∧
      ((removeRecentFile fileExists args w).settings.contains k = true ↔
        k ≤ (storedFiles (removeRecentFile fileExists args w).settings).length)) :=
  ⟨⟨addRecentFile_slots fileExists args w hne k h1 h4,
      contains_iff_of_slot _ _ k h1 (addRecentFile_slots fileExists args w hne k h1 h4)⟩,
    ⟨removeRecentFile_slots fileExists args w hne k h1 h4,
      contains_iff_of_slot _ _ k h1 (removeRecentFile_slots fileExists args w hne k h1 h4)⟩⟩

/-- Witness for C15: with `File_1` and `File_3` set and `File_2` missing,
adding `/x.ssrf` leaves the list `["/x.ssrf", "/a.ssrf"]` and no key `File_3`. -/
theorem recentFiles_storage_normal_form_witness :
    (addRecentFile (fun _ => true) ["/x.ssrf"]
      { MainWindow.ofRecent [] with settings := Settings.withGap }).settings 3 = none ∧
    storedFiles (addRecentFile (fun _ => true) ["/x.ssrf"]
      { MainWindow.ofRecent [] with settings := Settings.withGap }).settings =
      ["/x.ssrf", "/a.ssrf"] :=
  ⟨((recentFiles_storage_normal_form (fun _ => true)
      { MainWindow.ofRecent [] with settings := Settings.withGap } ["/x.ssrf"]
      (by decide) 3 (by decide) (by decide)).1.1).trans (by decide), by decide⟩

/-- C16: with no sub-mode active and unsaved changes, when the user answers
Save, `askSaveChanges` calls `file_save`, ignores what it returns and returns
true; `on_actionClose_triggered` therefore proceeds, also when the save failed:
the dive table is emptied, the unsaved-changes flag cleared, the file name and
the selection reset. -/
theorem on_actionClose_save_proceeds (env : Env) (w : MainWindow)
    (hp : w.plannerMode = PlannerMode.NOTHING) (he : w.isEditing = false)
    (hu : w.unsaved = true) (hs : env.exec w = QMessageBox.Save) :
    askSaveChanges env w = (true, (file_save env { w with asked := w.asked + 1 }).2) ∧
    on_actionClose_triggered env w =
      closeFile (file_save env { w with asked := w.asked + 1 }).2 ∧
    (on_actionClose_triggered env w).dive_table_nr = 0 ∧
    (on_actionClose_triggered env w).unsaved = false ∧
    (on_actionClose_triggered env w).existing_filename = none ∧
    (on_actionClose_triggered env w).selected_dive = -1 := by
  have hclose : on_actionClose_triggered env w =
      closeFile (file_save env { w with asked := w.asked + 1 }).2 := by
    unfold on_actionClose_triggered
    have h : ¬ (w.plannerMode ≠ PlannerMode.NOTHING ∨ w.isEditing = true) := by
      simp [hp, he]
    rw [if_neg h, if_pos hu]
    simp only [askSaveChanges_of_save env w hs, Bool.true_eq_false, if_false]
  rw [hclose]
  have hc := closeFile_clean (file_save env { w with asked := w.asked + 1 }).2
  exact ⟨askSaveChanges_of_save env w hs, rfl, hc.2.1, hc.1, hc.2.2.1, hc.2.2.2⟩

/-- Witness for C16: three dives of `/log.ssrf` with unsaved changes, the
answer Save, and a `save_dives` that fails. -/
theorem on_actionClose_save_proceeds_witness :
    (file_save { Env.simple [] true with exec := fun _ => QMessageBox.Save }
      { MainWindow.ofRecent [] with
        existing_filename := some "/log.ssrf", unsaved := true, dive_table_nr := 3,
        asked := 1 }).1 = -1 ∧
    (on_actionClose_triggered { Env.simple [] true with exec := fun _ => QMessageBox.Save }
      { MainWindow.ofRecent [] with
        existing_filename := some "/log.ssrf", unsaved := true,
        dive_table_nr := 3 }).dive_table_nr = 0 :=
  ⟨by decide,
    (on_actionClose_save_proceeds { Env.simple [] true with exec := fun _ => QMessageBox.Save }
      { MainWindow.ofRecent [] with
        existing_filename := some "/log.ssrf", unsaved := true, dive_table_nr := 3 }
      rfl rfl rfl rfl).2.2.1⟩

/-! ## Opening a file after a close that did not complete -/

theorem addRecentFile_dive_table_nr (fileExists : String → Bool) (newFiles : List String)
    (w : MainWindow) :
    (addRecentFile fileExists newFiles w).dive_table_nr = w.dive_table_nr := by
  unfold addRecentFile
  split <;> rfl

theorem removeRecentFile_dive_table_nr (fileExists : String → Bool)
    (failedFiles : List String) (w : MainWindow) :
    (removeRecentFile fileExists failedFiles w).dive_table_nr = w.dive_table_nr := by
  unfold removeRecentFile
  split <;> rfl

theorem loadFiles_single_parsed (env : Env) (filename : String) (w : MainWindow) :
    (loadFiles env [filename] w).parsed = w.parsed ++ [filename] := by
  unfold loadFiles
  simp only [List.isEmpty_cons, Bool.false_eq_true, if_false]
  rw [removeRecentFile_parsed, addRecentFile_parsed]
  exact parseLoop_parsed env [filename] w []

theorem loadFiles_single_dive_table_nr (env : Env) (filename : String) (w : MainWindow) :
    (loadFiles env [filename] w).dive_table_nr =
      env.process_dives (parseLoop env [filename] w []).1 := by
  unfold loadFiles
  simp only [List.isEmpty_cons, Bool.false_eq_true, if_false]
  rw [removeRecentFile_dive_table_nr, addRecentFile_dive_table_nr]

theorem parseLoop_single_dive_table_nr (env : Env) (filename : String) (w : MainWindow) :
    (parseLoop env [filename] w []).1.dive_table_nr =
      w.dive_table_nr + (env.parse_file w filename).2 := by
  rw [parseLoop_cons]
  split <;> rfl

theorem loadFiles_single_head (env : Env) (filename : String) (w : MainWindow)
    (hex : env.fileExists filename = true) (hok : (env.parse_file w filename).1 = 0) :
    (storedFiles (loadFiles env [filename] w).settings).head? = some filename := by
  unfold loadFiles
  simp only [List.isEmpty_cons, Bool.false_eq_true, if_false]
  have hfailed : (parseLoop env [filename] w []).2 = [] := by
    rw [parseLoop_cons, if_pos hok]
    rfl
  rw [hfailed]
  have hrem : ∀ v : MainWindow, removeRecentFile env.fileExists [] v = v := fun _ => rfl
  rw [hrem, storedFiles_addRecentFile_single _ _ _ hex]
  rfl

theorem on_actionClose_of_blocked (env : Env) (w : MainWindow)
    (hblocked : (w.plannerMode ≠ PlannerMode.NOTHING ∨ w.isEditing = true) ∨
      (w.unsaved = true ∧ env.exec w ≠ QMessageBox.Save ∧
        env.exec w ≠ QMessageBox.Discard)) :
    on_actionClose_triggered env w = { w with warned := w.warned + 1 } ∨
    on_actionClose_triggered env w = { w with asked := w.asked + 1 } := by
  by_cases h : w.plannerMode ≠ PlannerMode.NOTHING ∨ w.isEditing = true
  · exact Or.inl (on_actionClose_of_submode env w h)
  · have hp : w.plannerMode = PlannerMode.NOTHING := not_not.mp (fun h1 => h (Or.inl h1))
    have he : w.isEditing = false := Bool.eq_false_iff.mpr (fun h1 => h (Or.inr h1))
    rcases hblocked with h1 | ⟨hu, hs, hd⟩
    · exact absurd h1 h
    · exact Or.inr (on_actionClose_of_cancel env w hp he hu hs hd)

/-- Counterexample to C17 as stated: an edit is in progress, so the close is
blocked; the chosen file `/bad.xml` exists but `parse_file` reports an error.
The file is parsed, and `loadFiles` then removes it from the recent-file list:
it is not at the front of the stored list. -/
theorem recentFileTriggered_counterexample :
    ({ MainWindow.ofRecent ["/a.xml"] with
      isEditing := true, dive_table_nr := 3 } : MainWindow).isEditing = true ∧
    (recentFileTriggered (Env.simple ["/bad.xml"] false) "/bad.xml"
      { MainWindow.ofRecent ["/a.xml"] with
        isEditing := true, dive_table_nr := 3 }).parsed = ["/bad.xml"] ∧
    (storedFiles (recentFileTriggered (Env.simple ["/bad.xml"] false) "/bad.xml"
      { MainWindow.ofRecent ["/a.xml"] with
        isEditing := true, dive_table_nr := 3 }).settings).head? ≠ some "/bad.xml" ∧
    storedFiles (recentFileTriggered (Env.simple ["/bad.xml"] false) "/bad.xml"
      { MainWindow.ofRecent ["/a.xml"] with
        isEditing := true, dive_table_nr := 3 }).settings = ["/a.xml"] := by
  decide

/-- C17 (amended): when the close is blocked (a sub-mode is active, or there
are unsaved changes and the answer is neither Save nor Discard),
`recentFileTriggered` still runs `loadFiles` on the chosen path, in the state
the blocked close left: the dives are all still there, `parse_file` is called
on the path and appends its dives to them, and the path is first in the stored
recent-file list when its file exists and `parse_file` reports no error.
`on_actionOpen_triggered`, which returns early itself when a sub-mode is
active, does the same with the chosen file after a blocked close. -/
theorem recentFileTriggered_loads_after_blocked_close (env : Env) (w : MainWindow)
    (filename : String)
    (hblocked : (w.plannerMode ≠ PlannerMode.NOTHING ∨ w.isEditing = true) ∨
      (w.unsaved = true ∧ env.exec w ≠ QMessageBox.Save ∧
        env.exec w ≠ QMessageBox.Discard)) :
    recentFileTriggered env filename w =
      loadFiles env [filename] (on_actionClose_triggered env w) ∧
    (on_actionClose_triggered env w).dive_table_nr = w.dive_table_nr ∧
    (recentFileTriggered env filename w).parsed = w.parsed ++ [filename] ∧
    (parseLoop env [filename] (on_actionClose_triggered env w) []).1.dive_table_nr =
      w.dive_table_nr + (env.parse_file (on_actionClose_triggered env w) filename).2 ∧
    (recentFileTriggered env filename w).dive_table_nr =
      env.process_dives (parseLoop env [filename] (on_actionClose_triggered env w) []).1 ∧
    (env.fileExists filename = true →
      (env.parse_file (on_actionClose_triggered env w) filename).1 = 0 →
      (storedFiles (recentFileTriggered env filename w).settings).head? = some filename) ∧
    (w.plannerMode = PlannerMode.NOTHING → w.isEditing = false →
      (env.getOpenFileName w).isEmpty = false →
      on_actionOpen_triggered env w =
        loadFiles env [env.getOpenFileName w] (on_actionClose_triggered env w)) := by
  have hnr : (on_actionClose_triggered env w).dive_table_nr = w.dive_table_nr := by
    rcases on_actionClose_of_blocked env w hblocked with h | h <;> rw [h]
  have hparsed : (on_actionClose_triggered env w).parsed = w.parsed := by
    rcases on_actionClose_of_blocked env w hblocked with h | h <;> rw [h]
  refine ⟨rfl, hnr, ?_, ?_, ?_, fun hex hok => ?_, fun hp he hname => ?_⟩
  · unfold recentFileTriggered
    rw [loadFiles_single_parsed, hparsed]
  · rw [parseLoop_single_dive_table_nr, hnr]
  · unfold recentFileTriggered
    rw [loadFiles_single_dive_table_nr]
  · unfold recentFileTriggered
    exact loadFiles_single_head env filename _ hex hok
  · unfold on_actionOpen_triggered
    have h : ¬ (w.plannerMode ≠ PlannerMode.NOTHING ∨ w.isEditing = true) := by
      simp [hp, he]
    rw [if_neg h]
    simp only [hname, Bool.false_eq_true, if_false]

/-- Witness for C17 (amended): three dives, an edit in progress, and the
recent file `/b.xml`, which parses. -/
theorem recentFileTriggered_loads_after_blocked_close_witness :
    (recentFileTriggered (Env.simple [] false) "/b.xml"
      { MainWindow.ofRecent ["/a.xml", "/b.xml"] with
        isEditing := true, dive_table_nr := 3 }).parsed = ["/b.xml"] ∧
    (storedFiles (recentFileTriggered (Env.simple [] false) "/b.xml"
      { MainWindow.ofRecent ["/a.xml", "/b.xml"] with
        isEditing := true, dive_table_nr := 3 }).settings).head? = some "/b.xml" ∧
    (recentFileTriggered (Env.simple [] false) "/b.xml"
      { MainWindow.ofRecent ["/a.xml", "/b.xml"] with
        isEditing := true, dive_table_nr := 3 }).dive_table_nr = 4 :=
  ⟨(recentFileTriggered_loads_after_blocked_close (Env.simple [] false)
      { MainWindow.ofRecent ["/a.xml", "/b.xml"] with isEditing := true, dive_table_nr := 3 }
      "/b.xml" (Or.inl (Or.inr rfl))).2.2.1,
    (recentFileTriggered_loads_after_blocked_close (Env.simple [] false)
      { MainWindow.ofRecent ["/a.xml", "/b.xml"] with isEditing := true, dive_table_nr := 3 }
      "/b.xml" (Or.inl (Or.inr rfl))).2.2.2.2.2.1 rfl rfl,
    by decide⟩

/-! ## Cycling through the dive computers -/

theorem nextDC_eq (nrdc dc : Nat) (h32 : nrdc < 2 ^ 32) (hdc : dc < nrdc) :
    nextDC nrdc dc = (dc + 1) % nrdc := by
  unfold nextDC
  have h : (dc + 1) % 2 ^ 32 = dc + 1 := Nat.mod_eq_of_lt (by omega)
  rw [h]

theorem previousDC_eq (nrdc dc : Nat) (h31 : nrdc ≤ 2 ^ 31) (hdc : dc < nrdc) :
    previousDC nrdc dc = (dc + nrdc - 1) % nrdc := by
  unfold previousDC
  have h : ((dc + nrdc) % 2 ^ 32 + (2 ^ 32 - 1)) % 2 ^ 32 = dc + nrdc - 1 := by omega
  rw [h]

theorem nextDC_lt (nrdc dc : Nat) (h1 : 1 ≤ nrdc) : nextDC nrdc dc < nrdc :=
  Nat.mod_lt _ (by omega)

theorem previousDC_lt (nrdc dc : Nat) (h1 : 1 ≤ nrdc) : previousDC nrdc dc < nrdc :=
  Nat.mod_lt _ (by omega)

theorem nextDC_cases (nrdc dc : Nat) (h32 : nrdc < 2 ^ 32) (hdc : dc < nrdc) :
    nextDC nrdc dc = if dc + 1 = nrdc then 0 else dc + 1 := by
  rw [nextDC_eq nrdc dc h32 hdc]
  by_cases h : dc + 1 = nrdc
  · rw [if_pos h, h, Nat.mod_self]
  · rw [if_neg h, Nat.mod_eq_of_lt (by omega)]

theorem previousDC_cases (nrdc dc : Nat) (h31 : nrdc ≤ 2 ^ 31) (hdc : dc < nrdc) :
    previousDC nrdc dc = if dc = 0 then nrdc - 1 else dc - 1 := by
  rw [previousDC_eq nrdc dc h31 hdc]
  by_cases h : dc = 0
  · rw [if_pos h, h, Nat.zero_add, Nat.mod_eq_of_lt (by omega)]
  · rw [if_neg h]
    have h2 : dc + nrdc - 1 = dc - 1 + nrdc := by omega
    rw [h2, Nat.add_mod_right, Nat.mod_eq_of_lt (by omega)]

theorem previousDC_nextDC (nrdc dc : Nat) (h31 : nrdc ≤ 2 ^ 31) (hdc : dc < nrdc) :
    previousDC nrdc (nextDC nrdc dc) = dc := by
  have h32 : nrdc < 2 ^ 32 := by omega
  rw [previousDC_cases nrdc _ h31 (nextDC_lt nrdc dc (by omega)), nextDC_cases nrdc dc h32 hdc]
  by_cases h : dc + 1 = nrdc
  · simp only [if_pos h, if_true]
    omega
  · simp only [if_neg h, Nat.succ_ne_zero, if_false]
    omega

theorem nextDC_previousDC (nrdc dc : Nat) (h31 : nrdc ≤ 2 ^ 31) (hdc : dc < nrdc) :
    nextDC nrdc (previousDC nrdc dc) = dc := by
  have h32 : nrdc < 2 ^ 32 := by omega
  rw [nextDC_cases nrdc _ h32 (previousDC_lt nrdc dc (by omega)),
    previousDC_cases nrdc dc h31 hdc]
  by_cases h : dc = 0
  · simp only [if_pos h]
    have h2 : nrdc - 1 + 1 = nrdc := by omega
    rw [if_pos h2, h]
  · simp only [if_neg h]
    have h2 : ¬ (dc - 1 + 1 = nrdc) := by omega
    rw [if_neg h2]
    omega

theorem iterate_nextDC (nrdc dc : Nat) (h32 : nrdc < 2 ^ 32) (hdc : dc < nrdc) (k : Nat) :
    (nextDC nrdc)^[k] dc = (dc + k) % nrdc := by
  induction k with
  | zero => rw [Function.iterate_zero, id, Nat.add_zero, Nat.mod_eq_of_lt hdc]
  | succ k ih =>
    rw [Function.iterate_succ_apply', ih,
      nextDC_eq nrdc _ h32 (Nat.mod_lt _ (by omega)), Nat.mod_add_mod, Nat.add_assoc]

theorem on_actionNextDC_of_ne_zero (nrdc : Nat) (w : MainWindow) (h0 : nrdc ≠ 0) :
    on_actionNextDC_triggered nrdc w =
      some { w with dc_number := nextDC nrdc w.dc_number } := by
  unfold on_actionNextDC_triggered
  rw [if_neg h0]

theorem on_actionPreviousDC_of_ne_zero (nrdc : Nat) (w : MainWindow) (h0 : nrdc ≠ 0) :
    on_actionPreviousDC_triggered nrdc w =
      some { w with dc_number := previousDC nrdc w.dc_number } := by
  unfold on_actionPreviousDC_triggered
  rw [if_neg h0]

theorem repeatNextDC_eq (nrdc : Nat) (h1 : 1 ≤ nrdc) (k : Nat) (w : MainWindow) :
    repeatNextDC nrdc k w = some { w with dc_number := (nextDC nrdc)^[k] w.dc_number } := by
  induction k generalizing w with
  | zero => rfl
  | succ k ih =>
    have h0 : nrdc ≠ 0 := by omega
    unfold repeatNextDC
    rw [on_actionNextDC_of_ne_zero nrdc w h0, Option.some_bind, ih,
      Function.iterate_succ_apply]

/-- Counterexample to C18 as stated: with `nrdc = 2^32 - 1` computers and
`dc_number = 2^32 - 3`, the sum `dc_number + nrdc` wraps in 32-bit arithmetic;
next followed by previous ends at `2^32 - 4`, and so does previous followed
by next. -/
theorem dc_cycling_counterexample :
    4294967293 < 4294967295 ∧
    ((on_actionNextDC_triggered 4294967295
        { MainWindow.ofRecent [] with dc_number := 4294967293 }).bind
      (on_actionPreviousDC_triggered 4294967295)).map MainWindow.dc_number =
      some 4294967292 ∧
    ((on_actionPreviousDC_triggered 4294967295
        { MainWindow.ofRecent [] with dc_number := 4294967293 }).bind
      (on_actionNextDC_triggered 4294967295)).map MainWindow.dc_number =
      some 4294967292 := by
  decide

/-- C18 (amended): for `1 ≤ nrdc < 2^32` and `dc_number < nrdc`, both handlers
divide by a non-zero `nrdc` and leave `dc_number` below `nrdc`, and `nrdc`
applications of next restore the state; when moreover `nrdc ≤ 2^31`, so that
`dc_number + nrdc` does not wrap, next followed by previous and previous
followed by next restore the state. -/
theorem dc_cycling (nrdc : Nat) (w : MainWindow) (h1 : 1 ≤ nrdc) (h32 : nrdc < 2 ^ 32)
    (hdc : w.dc_number < nrdc) :
    on_actionNextDC_triggered nrdc w =
      some { w with dc_number := nextDC nrdc w.dc_number } ∧
    on_actionPreviousDC_triggered nrdc w =
      some { w with dc_number := previousDC nrdc w.dc_number } ∧
    nextDC nrdc w.dc_number < nrdc ∧
    previousDC nrdc w.dc_number < nrdc ∧
    repeatNextDC nrdc nrdc w = some w ∧
    (nrdc ≤ 2 ^ 31 →
      (on_actionNextDC_triggered nrdc w).bind (on_actionPreviousDC_triggered nrdc) = some w ∧
      (on_actionPreviousDC_triggered nrdc w).bind (on_actionNextDC_triggered nrdc) =
        some w) := by
  have h0 : nrdc ≠ 0 := by omega
  refine ⟨?_, ?_, nextDC_lt nrdc _ h1, previousDC_lt nrdc _ h1, ?_, fun h31 => ⟨?_, ?_⟩⟩
  · exact on_actionNextDC_of_ne_zero nrdc w h0
  · exact on_actionPreviousDC_of_ne_zero nrdc w h0
  · rw [repeatNextDC_eq nrdc h1, iterate_nextDC nrdc _ h32 hdc, Nat.add_mod_right,
      Nat.mod_eq_of_lt hdc]
  · rw [on_actionNextDC_of_ne_zero nrdc w h0, Option.some_bind,
      on_actionPreviousDC_of_ne_zero nrdc _ h0]
    show some { w with dc_number := previousDC nrdc (nextDC nrdc w.dc_number) } = some w
    rw [previousDC_nextDC nrdc _ h31 hdc]
  · rw [on_actionPreviousDC_of_ne_zero nrdc w h0, Option.some_bind,
      on_actionNextDC_of_ne_zero nrdc _ h0]
    show some { w with dc_number := nextDC nrdc (previousDC nrdc w.dc_number) } = some w
    rw [nextDC_previousDC nrdc _ h31 hdc]

/-- Witness for C18 (amended): three computers, the last one shown. -/
theorem dc_cycling_witness :
    ((on_actionNextDC_triggered 3 { MainWindow.ofRecent [] with dc_number := 2 }).map
      MainWindow.dc_number = some 0) ∧
    repeatNextDC 3 3 { MainWindow.ofRecent [] with dc_number := 2 } =
      some { MainWindow.ofRecent [] with dc_number := 2 } :=
  ⟨(congrArg (Option.map MainWindow.dc_number)
      (dc_cycling 3 { MainWindow.ofRecent [] with dc_number := 2 } (by decide) (by decide)
        (by decide)).1).trans (by decide),
    (dc_cycling 3 { MainWindow.ofRecent [] with dc_number := 2 } (by decide) (by decide)
      (by decide)).2.2.2.2.1⟩

end Subsurface
